import Mathlib

set_option maxRecDepth 8192

/-!
# Backup Catalog & Restore Orchestrator — verification development

Shallow embedding of `backend/modules/backups/services.py` (Azure DevOps git
backup discovery and restore service).

Modelling conventions:
* Python strings are `List Char`; Python string primitives (`strip`, `split`,
  `rsplit`, `replace`, `endswith`, slicing, `%`-free f-strings) are embedded
  as executable functions with CPython semantics.
* `os.getenv` values are `Option (List Char)`; Python truthiness of a string
  (`if s:`) is "present and non-empty".
* The service is modelled with `MOCK_MODE = False`: the mock fixtures are an
  external test concern (spec §1), and every claim is about non-mock calls.
* External collaborators (Azure blob listing, SAS signing, the Azure DevOps
  REST endpoint, `datetime.utcnow`) are a `World` record of oracles; a
  collaborator call that can raise is an `ExcOr` value.  Outbound network
  calls are recorded in a `NetEvent` trace returned next to each result.
* Python `datetime` values are naive `PyDateTime` tuples; `isoformat` is the
  zero-microsecond rendering.  `round(x, 2)` on an IEEE float cannot be
  embedded exactly; the `size_mb` field keeps the exact quotient in lowest
  terms as a numerator/denominator pair instead (no claim depends on it).
-/

/-- String literal to character list. -/
def lit (s : String) : List Char := s.toList

/-! ## Python string primitives -/

/-- Python `s.strip(c)` for a single strip character: drop leading and
trailing occurrences of `c`. -/
def pyStrip (c : Char) (s : List Char) : List Char :=
  ((s.dropWhile (· == c)).reverse.dropWhile (· == c)).reverse

/-- Python `s.split(c)` for a single separator character: split at every
occurrence; `"".split(c) == [""]` and empty fields are kept. -/
def pySplit (c : Char) : List Char → List (List Char)
  | [] => [[]]
  | x :: xs =>
    if x = c then [] :: pySplit c xs
    else
      match pySplit c xs with
      | [] => [[x]]
      | h :: t => (x :: h) :: t

/-- Python `s.split(c, maxsplit)` (auxiliary, structural in the input). -/
def pySplitMaxAux (c : Char) : Nat → List Char → List Char → List (List Char)
  | _, acc, [] => [acc.reverse]
  | 0, acc, x :: xs => pySplitMaxAux c 0 (x :: acc) xs
  | fuel + 1, acc, x :: xs =>
    if x = c then acc.reverse :: pySplitMaxAux c fuel [] xs
    else pySplitMaxAux c (fuel + 1) (x :: acc) xs

/-- Python `s.split(c, n)`: at most `n` splits, remainder kept whole. -/
def pySplitMax (c : Char) (n : Nat) (s : List Char) : List (List Char) :=
  pySplitMaxAux c n [] s

/-- Python `"/".join(parts)` (for a single-character separator). -/
def pyJoin (c : Char) (parts : List (List Char)) : List Char :=
  List.intercalate [c] parts

/-- Python `s.endswith(suffix)`. -/
def pyEndsWith (suf s : List Char) : Bool := suf.isSuffixOf s

/-- Python `s.rsplit(c, 1)` under the guarantee `c ∈ s`: the pair
(before-last-occurrence, after-last-occurrence). -/
def pyRSplitLast (c : Char) (s : List Char) : List Char × List Char :=
  let sp := s.reverse.span (fun x => x != c)
  (sp.2.tail.reverse, sp.1.reverse)

/-- Python `s.replace(pat, "")` (auxiliary; fuel bounds the scan, one unit
per consumed character, so `s.length` units always suffice). -/
def pyRemoveAllAux (pat : List Char) : Nat → List Char → List Char
  | 0, s => s
  | _ + 1, [] => []
  | fuel + 1, x :: xs =>
    if pat ≠ [] ∧ pat.isPrefixOf (x :: xs) then
      pyRemoveAllAux pat fuel ((x :: xs).drop pat.length)
    else x :: pyRemoveAllAux pat fuel xs

/-- Python `s.replace(pat, "")`: remove every (left-to-right,
non-overlapping) occurrence of `pat`. -/
def pyRemoveAll (pat s : List Char) : List Char :=
  pyRemoveAllAux pat s.length s

/-- Python string `<=` (lexicographic by code point). -/
def strLe : List Char → List Char → Bool
  | [], _ => true
  | _ :: _, [] => false
  | a :: as, b :: bs =>
    if a.toNat < b.toNat then true
    else if b.toNat < a.toNat then false
    else strLe as bs

/-- Python truthiness of an optional string environment value. -/
def truthy (o : Option (List Char)) : Bool :=
  match o with
  | none => false
  | some s => !s.isEmpty

/-! ## `urllib.parse.quote(path, safe='')` -/

/-- Hex digit (uppercase, as produced by `urllib.parse.quote`). -/
def hexDigitChar (n : Nat) : Char :=
  if n < 10 then Char.ofNat (48 + n) else Char.ofNat (55 + n)

/-- `%XX` escape of one byte. -/
def percentByte (b : Nat) : List Char :=
  ['%', hexDigitChar (b / 16), hexDigitChar (b % 16)]

/-- UTF-8 bytes of a code point. -/
def utf8Bytes (c : Char) : List Nat :=
  let n := c.toNat
  if n < 128 then [n]
  else if n < 2048 then [192 + n / 64, 128 + n % 64]
  else if n < 65536 then [224 + n / 4096, 128 + n / 64 % 64, 128 + n % 64]
  else [240 + n / 262144, 128 + n / 4096 % 64, 128 + n / 64 % 64, 128 + n % 64]

/-- Python `urllib.parse.quote(s, safe='')`: keep unreserved characters
(ASCII letters, digits, `_ . - ~`), percent-encode every other byte. -/
def pyQuote (s : List Char) : List Char :=
  s.foldr
    (fun c acc =>
      (if c.isAlpha || c.isDigit || c = '_' || c = '.' || c = '-' || c = '~'
       then [c] else (utf8Bytes c).foldr (fun b a => percentByte b ++ a) []) ++ acc)
    []

/-! ## Python `datetime` -/

/-- A naive Python `datetime` (microseconds and tzinfo are not modelled:
every datetime the service renders has zero microseconds, and timezone
rendering does not affect any claim). -/
structure PyDateTime where
  year : Nat
  month : Nat
  day : Nat
  hour : Nat
  minute : Nat
  second : Nat
deriving DecidableEq, Repr

/-- Gregorian leap year. -/
def isLeapYear (y : Nat) : Bool :=
  y % 4 = 0 && (y % 100 ≠ 0 || y % 400 = 0)

/-- Days in a month. -/
def daysInMonth (y m : Nat) : Nat :=
  if m = 2 then (if isLeapYear y then 29 else 28)
  else if m = 4 ∨ m = 6 ∨ m = 9 ∨ m = 11 then 30
  else 31

/-- The calendar day after a date (time of day unchanged). -/
def nextDay (dt : PyDateTime) : PyDateTime :=
  if dt.day < daysInMonth dt.year dt.month then
    ⟨dt.year, dt.month, dt.day + 1, dt.hour, dt.minute, dt.second⟩
  else if dt.month < 12 then
    ⟨dt.year, dt.month + 1, 1, dt.hour, dt.minute, dt.second⟩
  else
    ⟨dt.year + 1, 1, 1, dt.hour, dt.minute, dt.second⟩

/-- Python `dt + timedelta(days=n)`. -/
def addDays : Nat → PyDateTime → PyDateTime
  | 0, dt => dt
  | n + 1, dt => addDays n (nextDay dt)

/-- Decimal rendering of a number, left-padded with zeros to width `w`. -/
def padNum (w n : Nat) : List Char :=
  let ds := Nat.toDigits 10 n
  List.replicate (w - ds.length) '0' ++ ds

/-- Python `dt.isoformat()` for a zero-microsecond naive datetime. -/
def isoFormat (dt : PyDateTime) : List Char :=
  padNum 4 dt.year ++ lit "-" ++ padNum 2 dt.month ++ lit "-" ++ padNum 2 dt.day ++
    lit "T" ++ padNum 2 dt.hour ++ lit ":" ++ padNum 2 dt.minute ++ lit ":" ++
    padNum 2 dt.second

/-- Value of a decimal digit character. -/
def digitVal (c : Char) : Nat := c.toNat - 48

/-- Python `datetime.fromisoformat(s)` restricted to 10-character inputs:
succeeds exactly on a valid `YYYY-MM-DD` calendar date (year ≥ 1), yielding
the midnight datetime; anything else raises `ValueError` (here: `none`). -/
def fromIsoDate (s : List Char) : Option PyDateTime :=
  match s with
  | [y1, y2, y3, y4, h1, m1, m2, h2, d1, d2] =>
    if h1 = '-' ∧ h2 = '-' ∧ ([y1, y2, y3, y4, m1, m2, d1, d2].all Char.isDigit) then
      let y := ((digitVal y1 * 10 + digitVal y2) * 10 + digitVal y3) * 10 + digitVal y4
      let mo := digitVal m1 * 10 + digitVal m2
      let d := digitVal d1 * 10 + digitVal d2
      if 1 ≤ y ∧ 1 ≤ mo ∧ mo ≤ 12 ∧ 1 ≤ d ∧ d ≤ daysInMonth y mo then
        some ⟨y, mo, d, 0, 0, 0⟩
      else none
    else none
  | _ => none

/-- Python `datetime` `<` (lexicographic on the fields). -/
def dtLt (a b : PyDateTime) : Bool :=
  if a.year ≠ b.year then a.year < b.year
  else if a.month ≠ b.month then a.month < b.month
  else if a.day ≠ b.day then a.day < b.day
  else if a.hour ≠ b.hour then a.hour < b.hour
  else if a.minute ≠ b.minute then a.minute < b.minute
  else a.second < b.second

/-! ## Path Parser (`_parse_blob_path`, services.py lines 43-89) -/

/-- The parsed identity of one storage object (the dict returned by
`_parse_blob_path`). -/
structure ParsedBackupKey where
  org : List Char
  project : List Char
  repo : List Char
  date_str : Option (List Char)
  blob_name : List Char
deriving DecidableEq, Repr

/-- `".zip"`. -/
def zipExt : List Char := lit ".zip"

/-- `blob_name.strip("/").split("/")` (line 49). -/
def rawParts (blob_name : List Char) : List (List Char) :=
  pySplit '/' (pyStrip '/' blob_name)

/-- Prefix skipping (lines 53-56): drop the first segment when a configured
non-empty `AZURE_STORAGE_PREFIX` (itself stripped of slashes) equals it. -/
def skipPfx (envPfx : Option (List Char)) (parts : List (List Char)) :
    List (List Char) :=
  let pfx := pyStrip '/' (envPfx.getD [])
  if pfx ≠ [] ∧ parts.head? = some pfx then parts.tail else parts

/-- The segments remaining after the optional prefix segment is stripped. -/
def nonPfxSegments (envPfx : Option (List Char)) (key : List Char) :
    List (List Char) :=
  skipPfx envPfx (rawParts key)

/-- Date extraction from the filename segment (lines 72-81): only a
filename ending in `".zip"` yields a date; `replace(".zip", "")` removes
every occurrence of the suffix string; a remainder of at least 10
characters contributes its first 10 characters. -/
def dateStrOfFilename (filename : List Char) : Option (List Char) :=
  if pyEndsWith zipExt filename then
    let date_part := pyRemoveAll zipExt filename
    if 10 ≤ date_part.length then some (date_part.take 10) else none
  else none

/-- The filename segment `_parse_blob_path` extracts from a key (lines
61-70): everything after the last `/` of the joined tail segments, or `""`
when there is no `/`. -/
def blobFilename (envPfx : Option (List Char)) (key : List Char) : List Char :=
  let parts := skipPfx envPfx (rawParts key)
  let repo_with_date := pyJoin '/' (parts.drop 2)
  if '/' ∈ repo_with_date then (pyRSplitLast '/' repo_with_date).2 else []

/-- `_parse_blob_path` (lines 43-89).  `envPfx` is the raw
`AZURE_STORAGE_PREFIX` environment value. -/
def parse_blob_path (envPfx : Option (List Char)) (blob_name : List Char) :
    Option ParsedBackupKey :=
  let parts := rawParts blob_name
  if parts.length < 4 then none
  else
    let parts2 := skipPfx envPfx parts
    if parts2.length < 3 then none
    else
      let org := parts2.getD 0 []
      let project := parts2.getD 1 []
      let repo_with_date := pyJoin '/' (parts2.drop 2)
      let rf :=
        if '/' ∈ repo_with_date then pyRSplitLast '/' repo_with_date
        else (repo_with_date, [])
      some ⟨org, project, rf.1, dateStrOfFilename rf.2, blob_name⟩


/-! ## Environment, collaborators and outbound-call trace -/

/-- Result of a collaborator call that may raise: either an exception whose
`str(e)` is `msg`, or a value. -/
inductive ExcOr (α : Type) where
  | exc (msg : List Char)
  | ok (val : α)
deriving DecidableEq, Repr

/-- One object of a storage listing (`blob.name`, `blob.size`,
`blob.last_modified`). -/
structure BlobItem where
  name : List Char
  size : Option Nat
  last_modified : Option PyDateTime
deriving DecidableEq, Repr

/-- The JSON body of a successful create-repository response
(`repo_data.get("id")`, `repo_data.get("webUrl")`). -/
structure AdoRepoJson where
  id : Option (List Char)
  webUrl : Option (List Char)
deriving DecidableEq, Repr

/-- A `requests` response from the Azure DevOps create-repository call.
`body` is the result of `create_response.json()`: `.exc` models a body
that fails to parse as JSON (raises inside the orchestrator's `try`). -/
structure CreateRepoResponse where
  status_code : Nat
  text : List Char
  body : ExcOr AdoRepoJson
deriving DecidableEq, Repr

/-- The environment-variable configuration surface (values of `os.getenv`,
with `MOCK_MODE = False`). -/
structure Config where
  azureStorageAvailable : Bool
  storageAccount : Option (List Char)
  connectionString : Option (List Char)
  container : Option (List Char)
  storagePfx : Option (List Char)
  azureDevopsPat : Option (List Char)
deriving DecidableEq, Repr

/-- An outbound network call made by the service: a storage-container
listing (`container_client.list_blobs`) or the destination-host
create-repository POST (`requests.post`). -/
inductive NetEvent where
  | storageList (container : List Char) (pfx : List Char)
  | adoCreateRepo (org : List Char) (project : List Char) (name : List Char)
deriving DecidableEq, Repr

/-- External collaborators: the object store's listing (with its possible
transport failure), SAS signing (local crypto, but may raise), the SDK
client's `account_url`, the destination host's create-repository endpoint
(with possible transport failure), and the clock. -/
structure World where
  listBlobs : List Char → List Char → ExcOr (List BlobItem)
  generateSas : List Char → ExcOr (List Char)
  accountUrl : List Char
  createRepo : List Char → List Char → List Char → ExcOr CreateRepoResponse
  utcnow : PyDateTime

/-- `_get_storage_client` (lines 24-40) returns a client exactly when the
Azure SDK is importable and a connection string or an account name is a
non-empty configured value (`MOCK_MODE` is `False` throughout). -/
def storage_client_available (cfg : Config) : Bool :=
  cfg.azureStorageAvailable &&
    (truthy cfg.connectionString || truthy cfg.storageAccount)

/-! ## Catalog Builder (`list_repositories`, lines 139-193) -/

/-- One per-repository catalog entry (the dict in `repos_map`). -/
structure RepoSummary where
  id : List Char
  org : List Char
  project : List Char
  repo : List Char
  backup_count : Nat
  last_backup : Option (List Char)
deriving DecidableEq, Repr

/-- The `last_backup` update (lines 181-187): parse the 10-character date;
compare calendar dates only (the stored value's first 10 characters); a
`ValueError` from either parse is swallowed by the `except` and leaves the
stored value unchanged. -/
def updateLastBackup (stored : Option (List Char)) (ds : List Char) :
    Option (List Char) :=
  match fromIsoDate ds with
  | none => stored
  | some backup_date =>
    match stored with
    | none => some (isoFormat backup_date ++ lit "Z")
    | some prev =>
      match fromIsoDate (prev.take 10) with
      | none => stored
      | some prev_date =>
        if dtLt prev_date backup_date then
          some (isoFormat backup_date ++ lit "Z")
        else stored

/-- Fold one parsed blob into the insertion-ordered `repos_map`
(lines 169-187).  `backup_count` always increments; `last_backup` is only
touched when `date_str` is truthy (present and non-empty). -/
def applyBlobToMap (m : List (List Char × RepoSummary)) (p : ParsedBackupKey) :
    List (List Char × RepoSummary) :=
  let rid := p.org ++ lit "-" ++ p.project ++ lit "-" ++ p.repo
  let m1 :=
    if m.any (fun e => e.1 == rid) then m
    else m ++ [(rid, ⟨rid, p.org, p.project, p.repo, 0, none⟩)]
  m1.map (fun e =>
    if e.1 == rid then
      (e.1,
        ⟨e.2.id, e.2.org, e.2.project, e.2.repo, e.2.backup_count + 1,
          match p.date_str with
          | some ds => if ds.isEmpty then e.2.last_backup
                       else updateLastBackup e.2.last_backup ds
          | none => e.2.last_backup⟩)
    else e)

/-- `list_repositories` (lines 139-193), `MOCK_MODE = False`.  Only
`blob.name` is consulted, the map is a Python dict (insertion order), and
any exception from the listing degrades to the empty catalog. -/
def list_repositories (cfg : Config) (w : World) : List RepoSummary :=
  if ¬ storage_client_available cfg then []
  else
    let container_name := cfg.container.getD (lit "git-backups")
    let pfx0 := pyStrip '/' (cfg.storagePfx.getD [])
    let pfx := if ¬ pfx0.isEmpty then pfx0 ++ lit "/" else pfx0
    match w.listBlobs container_name pfx with
    | .exc _ => []
    | .ok blobs =>
      let m := blobs.foldl
        (fun m b =>
          if ¬ pyEndsWith zipExt b.name then m
          else
            match parse_blob_path cfg.storagePfx b.name with
            | none => m
            | some p => applyBlobToMap m p)
        []
      m.map (·.2)

/-! ## Version Lister (`list_backup_versions`, lines 196-244) -/

/-- The exact quotient `n / d` in lowest terms. -/
def ratPair (n d : Nat) : Nat × Nat := (n / Nat.gcd n d, d / Nat.gcd n d)

/-- One backup instance (the dict built at lines 230-237).  `size_mb`
keeps the exact value of `(blob.size or 0) / 1048576` in lowest terms
(CPython rounds the IEEE quotient to 2 decimals; no claim depends on this
field). -/
structure BackupVersion where
  id : List Char
  timestamp : List Char
  size_bytes : Nat
  size_mb : Nat × Nat
  retention_expires : Option (List Char)
  blob_path : List Char
deriving DecidableEq, Repr

/-- The version record for one surviving blob (lines 230-237).
The id is `f"{repo_id}-{parsed.get('date_str', blob.name)}"`: the dict
returned by `_parse_blob_path` always contains the key `date_str`, so the
`.get` default `blob.name` is dead code, and a `None` date renders as the
four characters `None` in the f-string. -/
def buildVersion (repo_id : List Char) (now : PyDateTime) (b : BlobItem)
    (p : ParsedBackupKey) : BackupVersion :=
  { id := repo_id ++ lit "-" ++ (match p.date_str with
      | some ds => ds
      | none => lit "None")
    timestamp := match b.last_modified with
      | some dt => isoFormat dt
      | none => isoFormat now ++ lit "Z"
    size_bytes := b.size.getD 0
    size_mb := ratPair (b.size.getD 0) 1048576
    retention_expires := b.last_modified.map (fun dt => isoFormat (addDays 90 dt))
    blob_path := b.name }

/-- `versions.sort(key=lambda x: x["timestamp"], reverse=True)`: the
comparator "`a` may precede `b`" of the descending, stable sort. -/
def tsGe (a b : BackupVersion) : Bool := strLe b.timestamp a.timestamp

/-- Stable descending insertion: `x` goes before the first element whose
timestamp is not above `x`'s, hence after every earlier element with an
equal timestamp. -/
def insertTsDesc (x : BackupVersion) : List BackupVersion → List BackupVersion
  | [] => [x]
  | y :: ys => if tsGe x y then x :: y :: ys else y :: insertTsDesc x ys

/-- CPython's `list.sort` is a stable sort; for a total preorder every
stable sort returns the same list, so the stable insertion sort below is
an exact model of line 240. -/
def pySortTsDesc (l : List BackupVersion) : List BackupVersion :=
  l.foldr insertTsDesc []

/-- The unsorted version list together with the outbound-call trace
(lines 196-237, everything before the final sort). -/
def preVersions (cfg : Config) (w : World) (repo_id : List Char) :
    List BackupVersion × List NetEvent :=
  if ¬ storage_client_available cfg then ([], [])
  else
    let parts := pySplitMax '-' 2 repo_id
    if parts.length < 3 then ([], [])
    else
      let org := parts.getD 0 []
      let project := parts.getD 1 []
      let repo := parts.getD 2 []
      let container_name := cfg.container.getD (lit "git-backups")
      let pfx := pyStrip '/' (cfg.storagePfx.getD [])
      let blobPfx :=
        (if ¬ pfx.isEmpty then pfx ++ lit "/" else []) ++
          org ++ lit "/" ++ project ++ lit "/" ++ repo ++ lit "/"
      let ev := [NetEvent.storageList container_name blobPfx]
      match w.listBlobs container_name blobPfx with
      | .exc _ => ([], ev)
      | .ok blobs =>
        (blobs.filterMap
          (fun b =>
            if ¬ pyEndsWith zipExt b.name then none
            else (parse_blob_path cfg.storagePfx b.name).map
              (buildVersion repo_id w.utcnow b)),
         ev)

/-- `list_backup_versions` (lines 196-244), `MOCK_MODE = False`, paired
with its outbound-call trace. -/
def list_backup_versions (cfg : Config) (w : World) (repo_id : List Char) :
    List BackupVersion × List NetEvent :=
  let pv := preVersions cfg w repo_id
  (pySortTsDesc pv.1, pv.2)

/-! ## Link Issuer (`get_download_link`, lines 247-307) -/

/-- `dict(part.split('=', 1) for part in connection_string.split(';') if '=' in part)`
as an ordered pair list (later duplicates overwrite earlier ones, see
`pyDictGet`). -/
def parseConnStr (cs : List Char) : List (List Char × List Char) :=
  (pySplit ';' cs).filterMap
    (fun part =>
      if '=' ∈ part then
        let sp := part.span (fun x => x != '=')
        some (sp.1, sp.2.tail)
      else none)

/-- Python dict lookup with default over the pair list (last binding of a
key wins, as in the dict constructor). -/
def pyDictGet (pairs : List (List Char × List Char)) (k d : List Char) :
    List Char :=
  match (pairs.filter (fun e => e.1 == k)).getLast? with
  | some e => e.2
  | none => d

/-- `get_download_link` (lines 247-307), `MOCK_MODE = False`.  The whole
signing block sits in a `try` whose `except` returns the plain
percent-encoded blob URL; the only exception point the collaborators can
hit inside it is `generate_blob_sas`.  The SDK's `blob_client.url` is
modelled with the same percent-encoded URL (its exact quoting is not
load-bearing for any claim). -/
def get_download_link (cfg : Config) (w : World)
    (repo_id backup_id : List Char) : Option (List Char) × List NetEvent :=
  if ¬ storage_client_available cfg then (none, [])
  else
    let lv := list_backup_versions cfg w repo_id
    match lv.1.find? (fun v => v.id == backup_id) with
    | none => (none, lv.2)
    | some backup =>
      if backup.blob_path.isEmpty then (none, lv.2)
      else
        let container_name := cfg.container.getD (lit "git-backups")
        let blobUrl := w.accountUrl ++ lit "/" ++ container_name ++ lit "/" ++
          pyQuote backup.blob_path
        let result :=
          if truthy cfg.connectionString then
            let csPairs := parseConnStr (cfg.connectionString.getD [])
            let account_key := pyDictGet csPairs (lit "AccountKey") []
            if ¬ account_key.isEmpty then
              match w.generateSas backup.blob_path with
              | .exc _ => blobUrl
              | .ok sas => blobUrl ++ lit "?" ++ sas
            else blobUrl
          else blobUrl
        (some result, lv.2)

/-! ## Restore Orchestrator (`restore_to_azure_devops`, lines 310-389) -/

/-- The status dict returned by `restore_to_azure_devops`.  Keys absent
from a given return statement are `none`. -/
structure RestoreOutcome where
  status : List Char
  message : List Char
  repo_url : Option (List Char)
  repo_id : Option (List Char)
  download_url : Option (List Char)
deriving DecidableEq, Repr

/-- `restore_to_azure_devops` (lines 310-389), `MOCK_MODE = False`, paired
with its outbound-call trace.  The `visibility` parameter (Python default
`"private"`) is accepted but never read by the source.  The `try` block
covers only the create-repository call and the parsing of its response. -/
def restore_to_azure_devops (cfg : Config) (w : World)
    (repo_id backup_id target_org target_project target_repo_name
      visibility : List Char) : RestoreOutcome × List NetEvent :=
  let dl := get_download_link cfg w repo_id backup_id
  match dl.1 with
  | none =>
    (⟨lit "error", lit "Failed to generate download link for backup",
      none, none, none⟩, dl.2)
  | some download_url =>
    if ¬ truthy cfg.azureDevopsPat then
      (⟨lit "error",
        lit "Azure DevOps PAT not configured. Set AZURE_DEVOPS_PAT environment variable.",
        none, none, none⟩, dl.2)
    else
      let ev := dl.2 ++ [NetEvent.adoCreateRepo target_org target_project target_repo_name]
      match w.createRepo target_org target_project target_repo_name with
      | .exc e =>
        (⟨lit "error", lit "Restore failed: " ++ e, none, none, none⟩, ev)
      | .ok resp =>
        if resp.status_code ≠ 200 ∧ resp.status_code ≠ 201 then
          if resp.status_code = 409 then
            (⟨lit "error",
              lit "Repository " ++ target_repo_name ++ lit " already exists in " ++
                target_project, none, none, none⟩, ev)
          else
            (⟨lit "error", lit "Failed to create repository: " ++ resp.text,
              none, none, none⟩, ev)
        else
          match resp.body with
          | .exc e =>
            (⟨lit "error", lit "Restore failed: " ++ e, none, none, none⟩, ev)
          | .ok repo_data =>
            let defaultUrl := lit "https://dev.azure.com/" ++ target_org ++
              lit "/" ++ target_project ++ lit "/_git/" ++ target_repo_name
            let repoUrl :=
              match repo_data.webUrl with
              | some u => if u.isEmpty then defaultUrl else u
              | none => defaultUrl
            (⟨lit "success",
              lit "Repository " ++ target_repo_name ++
                lit " created. Import backup manually or implement import API.",
              some repoUrl, repo_data.id, some download_url⟩, ev)

/-! ## Concrete fixtures for witnesses and counterexamples -/

/-- A configuration with a reachable storage client (connection string with
a usable shared key) and a configured PAT. -/
def cfgFull : Config :=
  ⟨true, none, some (lit "AccountName=acct;AccountKey=k1"), none, none,
    some (lit "tok")⟩

/-- `cfgFull` with the PAT unset. -/
def cfgNoPat : Config :=
  ⟨true, none, some (lit "AccountName=acct;AccountKey=k1"), none, none, none⟩

/-- A configuration with no storage credentials at all (and no PAT):
`_get_storage_client` returns `None`. -/
def cfgNoStorage : Config := ⟨true, none, none, none, none, none⟩

/-- A fixed clock value. -/
def utcnowFix : PyDateTime := ⟨2025, 6, 1, 12, 0, 0⟩

/-- The single backup object used by the restore-path fixtures. -/
def blobOPR : BlobItem :=
  ⟨lit "o/p/r/2025-01-02-0304.zip", some 2097152, some ⟨2025, 1, 2, 3, 4, 5⟩⟩

/-- A world whose store holds exactly `blobOPR`, whose signing succeeds,
and whose destination host reports a created repository. -/
def worldOk : World :=
  ⟨fun _ _ => .ok [blobOPR], fun _ => .ok (lit "SAS"),
    lit "https://acct.blob.core.windows.net",
    fun _ _ _ => .ok ⟨201, lit "", .ok ⟨some (lit "rid1"), some (lit "https://web")⟩⟩,
    utcnowFix⟩

/-- `worldOk` with a destination host answering HTTP 409. -/
def world409 : World :=
  ⟨fun _ _ => .ok [blobOPR], fun _ => .ok (lit "SAS"),
    lit "https://acct.blob.core.windows.net",
    fun _ _ _ => .ok ⟨409, lit "conflict", .ok ⟨none, none⟩⟩,
    utcnowFix⟩

/-- `worldOk` with a transport failure at the create-repository POST. -/
def worldPostExc : World :=
  ⟨fun _ _ => .ok [blobOPR], fun _ => .ok (lit "SAS"),
    lit "https://acct.blob.core.windows.net",
    fun _ _ _ => .exc (lit "boom"),
    utcnowFix⟩

/-- `worldOk` with a create-repository response whose body fails to parse
as JSON (`create_response.json()` raises). -/
def worldBadJson : World :=
  ⟨fun _ _ => .ok [blobOPR], fun _ => .ok (lit "SAS"),
    lit "https://acct.blob.core.windows.net",
    fun _ _ _ => .ok ⟨201, lit "", .exc (lit "badjson")⟩,
    utcnowFix⟩

/-- `worldOk` with a transport failure at the storage listing. -/
def worldListExc : World :=
  ⟨fun _ _ => .exc (lit "neterr"), fun _ => .ok (lit "SAS"),
    lit "https://acct.blob.core.windows.net",
    fun _ _ _ => .ok ⟨201, lit "", .ok ⟨some (lit "rid1"), some (lit "https://web")⟩⟩,
    utcnowFix⟩

/-- `worldOk` with an exception raised during SAS signing. -/
def worldSasExc : World :=
  ⟨fun _ _ => .ok [blobOPR], fun _ => .exc (lit "sigfail"),
    lit "https://acct.blob.core.windows.net",
    fun _ _ _ => .ok ⟨201, lit "", .ok ⟨some (lit "rid1"), some (lit "https://web")⟩⟩,
    utcnowFix⟩

/-- A world whose store holds one dateless backup object
`org/proj/repo/x.zip`. -/
def worldDateless : World :=
  ⟨fun _ _ => .ok [⟨lit "org/proj/repo/x.zip", some 1024, some ⟨2025, 2, 3, 4, 5, 6⟩⟩],
    fun _ => .ok (lit "SAS"),
    lit "https://acct.blob.core.windows.net",
    fun _ _ _ => .ok ⟨201, lit "", .ok ⟨none, none⟩⟩,
    utcnowFix⟩

/-- The version id the fixtures resolve. -/
def bidOPR : List Char := lit "o-p-r-2025-01-02"


/-- Scenario-A configuration: reachable client, no configured key prefix,
default container. -/
def cfgScenA : Config :=
  ⟨true, none, some (lit "AccountName=acct;AccountKey=k1"), none, none, none⟩

/-- First Scenario-A object. -/
def blobAcme1 : BlobItem :=
  ⟨lit "acme/ProjectX/svc-a/2025-03-01-0900.zip", some 15728640,
    some ⟨2025, 3, 1, 9, 0, 0⟩⟩

/-- Second Scenario-A object. -/
def blobAcme2 : BlobItem :=
  ⟨lit "acme/ProjectX/svc-a/2025-03-02-0900.zip", some 15728640,
    some ⟨2025, 3, 2, 9, 0, 0⟩⟩

/-- Scenario-A world, objects listed in date order. -/
def worldAcme12 : World :=
  ⟨fun _ _ => .ok [blobAcme1, blobAcme2], fun _ => .ok (lit "SAS"),
    lit "https://acct.blob.core.windows.net",
    fun _ _ _ => .ok ⟨201, lit "", .ok ⟨none, none⟩⟩,
    utcnowFix⟩

/-- A trace containing only storage-listing calls (no destination-host
call). -/
def storageOnly (evs : List NetEvent) : Bool :=
  evs.all (fun e => match e with
    | .storageList _ _ => true
    | .adoCreateRepo _ _ _ => false)

/-- The `BackupVersion` record the fixtures resolve for `bidOPR`. -/
def backupOPR : BackupVersion :=
  ⟨lit "o-p-r-2025-01-02", lit "2025-01-02T03:04:05", 2097152, (2, 1),
    some (lit "2025-04-02T03:04:05"), lit "o/p/r/2025-01-02-0304.zip"⟩

/-- Scenario-A world, objects listed in reverse order. -/
def worldAcme21 : World :=
  ⟨fun _ _ => .ok [blobAcme2, blobAcme1], fun _ => .ok (lit "SAS"),
    lit "https://acct.blob.core.windows.net",
    fun _ _ _ => .ok ⟨201, lit "", .ok ⟨none, none⟩⟩,
    utcnowFix⟩

/-- C9: a listing of exactly the two `acme/ProjectX/svc-a` keys (either
listing order, no configured prefix) yields one `RepositorySummary` with id
`acme-ProjectX-svc-a`, `backup_count = 2`, and a `last_backup` whose
calendar date is the maximum `date_str` `2025-03-02`. -/
theorem list_repositories_scenario_a :
    (list_repositories cfgScenA worldAcme12 =
      [⟨lit "acme-ProjectX-svc-a", lit "acme", lit "ProjectX", lit "svc-a", 2,
        some (lit "2025-03-02T00:00:00Z")⟩]) ∧
    (list_repositories cfgScenA worldAcme21 =
      [⟨lit "acme-ProjectX-svc-a", lit "acme", lit "ProjectX", lit "svc-a", 2,
        some (lit "2025-03-02T00:00:00Z")⟩]) ∧
    (lit "2025-03-02T00:00:00Z").take 10 = lit "2025-03-02" := by
  refine ⟨by decide, by decide, by decide⟩

/-- C1: evaluation of `list_backup_versions` at a surviving object with no
extractable date.  `parsed.get('date_str', blob.name)` never falls back to
the blob name (the key is always present in the dict), so the produced id
is `"org-proj-repo-None"` — not the id `"org-proj-repo-" + rawKey` that the
claim and the spec prescribe. -/
theorem version_id_renders_none_for_dateless_key :
    ((list_backup_versions cfgFull worldDateless (lit "org-proj-repo")).1.map (·.id) =
      [lit "org-proj-repo-None"]) ∧
    lit "org-proj-repo-None" ≠ lit "org-proj-repo-" ++ lit "org/proj/repo/x.zip" := by
  refine ⟨by decide, by decide⟩

/-- C10: the restore outcome (and its outbound-call trace) is independent
of the `visibility` argument — the parameter is accepted but never read. -/
theorem restore_independent_of_visibility (cfg : Config) (w : World)
    (repo_id backup_id target_org target_project target_repo_name
      v1 v2 : List Char) :
    restore_to_azure_devops cfg w repo_id backup_id target_org target_project
        target_repo_name v1 =
      restore_to_azure_devops cfg w repo_id backup_id target_org target_project
        target_repo_name v2 := rfl

/-! ## Lemmas: the comparator `strLe` and the stable sort -/

theorem strLe_refl (s : List Char) : strLe s s = true := by
  induction s with
  | nil => rfl
  | cons a as ih => simp [strLe, ih]

theorem strLe_total (a b : List Char) : strLe a b = true ∨ strLe b a = true := by
  induction a generalizing b with
  | nil => left; rfl
  | cons x xs ih =>
    cases b with
    | nil => right; rfl
    | cons y ys =>
      by_cases h1 : x.toNat < y.toNat
      · left; simp [strLe, h1]
      · by_cases h2 : y.toNat < x.toNat
        · right; simp [strLe, h2]
        · rcases ih ys with h | h
          · left; simp [strLe, h1, h2, h]
          · right; simp [strLe, h1, h2, h]

theorem strLe_trans : ∀ a b c : List Char,
    strLe a b = true → strLe b c = true → strLe a c = true := by
  intro a
  induction a with
  | nil => intro b c _ _; rfl
  | cons x xs ih =>
    intro b c h1 h2
    cases b with
    | nil => simp [strLe] at h1
    | cons y ys =>
      cases c with
      | nil => simp [strLe] at h2
      | cons z zs =>
        simp only [strLe] at h1 h2 ⊢
        split at h1
        · rename_i hxy
          split at h2
          · rename_i hyz; rw [if_pos (by omega)]
          · split at h2
            · simp at h2
            · rename_i hyz hzy; rw [if_pos (by omega)]
        · split at h1
          · simp at h1
          · rename_i hxy hyx
            split at h2
            · rename_i hyz; rw [if_pos (by omega)]
            · split at h2
              · simp at h2
              · rename_i hyz hzy
                rw [if_neg (by omega), if_neg (by omega)]
                exact ih ys zs h1 h2

theorem mem_insertTsDesc {x z : BackupVersion} : ∀ {l : List BackupVersion},
    z ∈ insertTsDesc x l ↔ z = x ∨ z ∈ l := by
  intro l
  induction l with
  | nil => simp [insertTsDesc]
  | cons y ys ih =>
    by_cases h : tsGe x y = true
    · simp [insertTsDesc, h]
    · simp only [insertTsDesc, if_neg h, List.mem_cons, ih]
      tauto

theorem pairwise_insertTsDesc {x : BackupVersion} : ∀ {l : List BackupVersion},
    l.Pairwise (fun a b => tsGe a b = true) →
    (insertTsDesc x l).Pairwise (fun a b => tsGe a b = true) := by
  intro l hl
  induction l with
  | nil => simp [insertTsDesc]
  | cons y ys ih =>
    rcases List.pairwise_cons.mp hl with ⟨hy, hys⟩
    by_cases h : tsGe x y = true
    · simp only [insertTsDesc, if_pos h]
      refine List.pairwise_cons.mpr ⟨?_, hl⟩
      intro b hb
      rcases List.mem_cons.mp hb with rfl | hb
      · exact h
      · exact strLe_trans _ _ _ (hy b hb) h
    · simp only [insertTsDesc, if_neg h]
      refine List.pairwise_cons.mpr ⟨?_, ih hys⟩
      intro b hb
      rcases mem_insertTsDesc.mp hb with rfl | hb
      · rcases strLe_total b.timestamp y.timestamp with ht | ht
        · exact ht
        · exact absurd ht (by simpa [tsGe] using h)
      · exact hy b hb

theorem pairwise_pySortTsDesc (l : List BackupVersion) :
    (pySortTsDesc l).Pairwise (fun a b => tsGe a b = true) := by
  induction l with
  | nil => simp [pySortTsDesc]
  | cons x xs ih => exact pairwise_insertTsDesc ih

theorem filter_insertTsDesc (t : List Char) (x : BackupVersion) :
    ∀ l : List BackupVersion,
    (insertTsDesc x l).filter (fun v => v.timestamp == t) =
      ((x :: l).filter (fun v => v.timestamp == t)) := by
  intro l
  induction l with
  | nil => rfl
  | cons y ys ih =>
    by_cases h : tsGe x y = true
    · simp [insertTsDesc, h]
    · have hne : ¬ (x.timestamp = y.timestamp) := by
        intro he
        exact h (by simp [tsGe, he, strLe_refl])
      simp only [insertTsDesc, if_neg h]
      have ihx : List.filter (fun v => v.timestamp == t) (insertTsDesc x ys) =
          List.filter (fun v => v.timestamp == t) (x :: ys) := ih
      by_cases hx : x.timestamp = t
      · have hyt : ¬ (y.timestamp = t) := fun hyt => hne (by rw [hx, hyt])
        simp [List.filter_cons, hx, hyt, ihx]
      · by_cases hyt : y.timestamp = t <;>
          simp [List.filter_cons, hx, hyt, ihx]

theorem filter_pySortTsDesc (t : List Char) (l : List BackupVersion) :
    (pySortTsDesc l).filter (fun v => v.timestamp == t) =
      l.filter (fun v => v.timestamp == t) := by
  induction l with
  | nil => rfl
  | cons x xs ih =>
    have h1 : pySortTsDesc (x :: xs) = insertTsDesc x (pySortTsDesc xs) := rfl
    rw [h1, filter_insertTsDesc]
    by_cases hx : x.timestamp = t <;> simp [List.filter, hx, ih]

/-- C6: every `list_backup_versions` result is sorted non-increasing by the
`timestamp` field, and elements with equal timestamps keep their original
listing order (the elements of any fixed timestamp appear exactly as in the
pre-sort listing pass `preVersions`). -/
theorem list_backup_versions_sorted_stable (cfg : Config) (w : World)
    (repo_id : List Char) :
    ((list_backup_versions cfg w repo_id).1.Pairwise
      (fun a b => strLe b.timestamp a.timestamp = true)) ∧
    (∀ t, (list_backup_versions cfg w repo_id).1.filter (fun v => v.timestamp == t) =
      (preVersions cfg w repo_id).1.filter (fun v => v.timestamp == t)) := by
  constructor
  · exact pairwise_pySortTsDesc (preVersions cfg w repo_id).1
  · intro t
    exact filter_pySortTsDesc t (preVersions cfg w repo_id).1

/-- C3: `_parse_blob_path` returns `none` exactly when the raw key splits
into fewer than 4 segments or fewer than 3 segments remain after the
configured, optional prefix segment is stripped; in particular any key with
fewer than 3 non-prefix segments parses to `none`. -/
theorem parse_blob_path_none_iff :
    (∀ envPfx key, parse_blob_path envPfx key = none ↔
      ((rawParts key).length < 4 ∨ (nonPfxSegments envPfx key).length < 3)) ∧
    (∀ envPfx key, (nonPfxSegments envPfx key).length < 3 →
      parse_blob_path envPfx key = none) := by
  have main : ∀ envPfx key, parse_blob_path envPfx key = none ↔
      ((rawParts key).length < 4 ∨ (nonPfxSegments envPfx key).length < 3) := by
    intro envPfx key
    simp only [parse_blob_path, nonPfxSegments]
    by_cases h4 : (rawParts key).length < 4
    · simp [h4]
    · simp only [if_neg h4]
      by_cases h3 : (skipPfx envPfx (rawParts key)).length < 3
      · simp [h3, h4]
      · simp [h3, h4]
  refine ⟨main, fun envPfx key h => (main envPfx key).mpr (Or.inr h)⟩

/-- Witness for C3 at a concrete two-segment key. -/
theorem parse_blob_path_none_iff_witness :
    parse_blob_path none (lit "a/b") = none :=
  parse_blob_path_none_iff.2 none (lit "a/b") (by decide)

/-! ## Lemmas: the Path Parser on structured keys -/

theorem zipExt_eq : zipExt = '.' :: 'z' :: 'i' :: 'p' :: [] := rfl

theorem pySplit_no_sep {c : Char} : ∀ {a : List Char}, c ∉ a → pySplit c a = [a] := by
  intro a h
  induction a with
  | nil => rfl
  | cons x xs ih =>
    have hx : x ≠ c := fun he => h (he ▸ List.mem_cons_self x xs)
    have hxs : c ∉ xs := fun hm => h (List.mem_cons_of_mem x hm)
    simp [pySplit, hx, ih hxs]

theorem pySplit_append_sep {c : Char} : ∀ {a : List Char} (b : List Char), c ∉ a →
    pySplit c (a ++ c :: b) = a :: pySplit c b := by
  intro a b h
  induction a with
  | nil => simp [pySplit]
  | cons x xs ih =>
    have hx : x ≠ c := fun he => h (he ▸ List.mem_cons_self x xs)
    have hxs : c ∉ xs := fun hm => h (List.mem_cons_of_mem x hm)
    simp [pySplit, hx, ih hxs]

theorem pyStrip_eq_self {c : Char} {s : List Char}
    (h1 : s.head? ≠ some c) (h2 : s.getLast? ≠ some c) : pyStrip c s = s := by
  have hd : s.dropWhile (· == c) = s := by
    cases s with
    | nil => rfl
    | cons a t =>
      have ha : ¬ (a = c) := fun he => h1 (by simp [he])
      simp [List.dropWhile_cons, ha]
  have hr : s.reverse.dropWhile (· == c) = s.reverse := by
    cases hs : s.reverse with
    | nil => rfl
    | cons a t =>
      have ha' : s.getLast? = some a := by
        rw [← List.head?_reverse, hs]; rfl
      have ha : ¬ (a = c) := fun he => h2 (by rw [ha', he])
      rw [List.dropWhile_cons]
      simp [ha]
  simp [pyStrip, hd, hr]

theorem pyStrip_of_not_mem {c : Char} {s : List Char} (h : c ∉ s) :
    pyStrip c s = s := by
  refine pyStrip_eq_self ?_ ?_
  · intro hh
    cases s with
    | nil => simp at hh
    | cons a t =>
      have : a = c := by simpa using hh
      exact h (this ▸ List.mem_cons_self a t)
  · intro hh
    exact h (List.mem_of_getLast?_eq_some hh)

theorem pyJoin_pair (c : Char) (a b : List Char) : pyJoin c [a, b] = a ++ c :: b := by
  simp [pyJoin, List.intercalate]

theorem pyRSplitLast_append {c : Char} (a b : List Char) (h : c ∉ b) :
    pyRSplitLast c (a ++ c :: b) = (a, b) := by
  have hb : ∀ x ∈ b.reverse, (x != c) = true := by
    intro x hx
    have hxb : x ∈ b := List.mem_reverse.mp hx
    have : x ≠ c := fun he => h (he ▸ hxb)
    simpa using this
  simp only [pyRSplitLast, List.span_eq_take_drop, List.reverse_append,
    List.reverse_cons, List.append_assoc, List.singleton_append]
  rw [List.takeWhile_append_of_pos hb, List.dropWhile_append_of_pos hb]
  simp

theorem pyRemoveAllAux_nil (pat : List Char) : ∀ fuel, pyRemoveAllAux pat fuel [] = [] := by
  intro fuel; cases fuel <;> rfl

theorem pyRemoveAllAux_zip : ∀ fuel (s : List Char), '.' ∉ s → s.length + 4 ≤ fuel →
    pyRemoveAllAux zipExt fuel (s ++ zipExt) = s := by
  intro fuel
  induction fuel with
  | zero => intro s _ hlen; omega
  | succ n ih =>
    intro s hdot hlen
    cases s with
    | nil =>
      rw [List.nil_append, zipExt_eq]
      show pyRemoveAllAux zipExt (n + 1) ('.' :: 'z' :: 'i' :: 'p' :: []) = []
      rw [pyRemoveAllAux]
      rw [if_pos ⟨by rw [zipExt_eq]; simp, by rw [zipExt_eq]; simp [List.isPrefixOf]⟩]
      rw [zipExt_eq]
      exact pyRemoveAllAux_nil _ _
    | cons x xs =>
      have hx : ¬ ('.' = x) := fun he => hdot (he ▸ List.mem_cons_self x xs)
      have hxs : '.' ∉ xs := fun hm => hdot (List.mem_cons_of_mem x hm)
      rw [List.cons_append, pyRemoveAllAux]
      rw [if_neg ?_]
      · rw [ih xs hxs (by simp at hlen ⊢; omega)]
      · rintro ⟨-, hpre⟩
        rw [zipExt_eq] at hpre
        simp [List.isPrefixOf, hx] at hpre

theorem pyRemoveAll_strip_zip {s : List Char} (h : '.' ∉ s) :
    pyRemoveAll zipExt (s ++ zipExt) = s := by
  have : (s ++ zipExt).length = s.length + 4 := by simp [zipExt_eq]
  rw [pyRemoveAll, this]
  exact pyRemoveAllAux_zip _ s h (Nat.le_refl _)

theorem dateStrOfFilename_eq (f : List Char) :
    dateStrOfFilename f =
      if pyEndsWith zipExt f then
        (if 10 ≤ (pyRemoveAll zipExt f).length
         then some ((pyRemoveAll zipExt f).take 10) else none)
      else none := rfl

theorem parse_date_str_eq (envPfx : Option (List Char)) (key : List Char)
    (res : ParsedBackupKey) (h : parse_blob_path envPfx key = some res) :
    res.date_str = dateStrOfFilename (blobFilename envPfx key) := by
  simp only [parse_blob_path] at h
  split at h
  · exact absurd h (by simp)
  · split at h
    · exact absurd h (by simp)
    · rw [← Option.some.inj h]
      simp only [blobFilename, nonPfxSegments]
      split
      · rfl
      · rfl

theorem parse_wellformed_key (p o pr r ymd hm : List Char) (hp : p ≠ [])
    (hps : '/' ∉ p) (hos : '/' ∉ o) (hprs : '/' ∉ pr) (hrs : '/' ∉ r)
    (hys : '/' ∉ ymd) (hhs : '/' ∉ hm) (hyd : '.' ∉ ymd) (hhd : '.' ∉ hm)
    (hylen : ymd.length = 10) (hhlen : hm.length = 4) :
    parse_blob_path (some p)
      (p ++ '/' :: (o ++ '/' :: (pr ++ '/' :: (r ++ '/' :: ((ymd ++ '-' :: hm) ++ zipExt))))) =
    some ⟨o, pr, r, some ymd,
      p ++ '/' :: (o ++ '/' :: (pr ++ '/' :: (r ++ '/' :: ((ymd ++ '-' :: hm) ++ zipExt))))⟩ := by
  have hdotdp : '.' ∉ ymd ++ '-' :: hm := by
    intro hmem
    rcases List.mem_append.mp hmem with h | h
    · exact hyd h
    · rcases List.mem_cons.mp h with h | h
      · exact absurd h (by decide)
      · exact hhd h
  have hslashdp : '/' ∉ ymd ++ '-' :: hm := by
    intro hmem
    rcases List.mem_append.mp hmem with h | h
    · exact hys h
    · rcases List.mem_cons.mp h with h | h
      · exact absurd h (by decide)
      · exact hhs h
  have hslashfn : '/' ∉ (ymd ++ '-' :: hm) ++ zipExt := by
    intro hmem
    rcases List.mem_append.mp hmem with h | h
    · exact hslashdp h
    · rw [zipExt_eq] at h; simp at h
  have hhead :
      (p ++ '/' :: (o ++ '/' :: (pr ++ '/' :: (r ++ '/' :: ((ymd ++ '-' :: hm) ++ zipExt))))).head? ≠
        some '/' := by
    rcases p with - | ⟨ph, pt⟩
    · exact absurd rfl hp
    · have hph : ph ≠ '/' := fun he => hps (he ▸ List.mem_cons_self ph pt)
      simpa using hph
  have hlast :
      (p ++ '/' :: (o ++ '/' :: (pr ++ '/' :: (r ++ '/' :: ((ymd ++ '-' :: hm) ++ zipExt))))).getLast? =
        some 'p' := by
    rw [← List.head?_reverse]
    simp [zipExt_eq, List.reverse_append]
  have hstr := pyStrip_eq_self hhead (by rw [hlast]; simp)
  have hraw :
      rawParts (p ++ '/' :: (o ++ '/' :: (pr ++ '/' :: (r ++ '/' :: ((ymd ++ '-' :: hm) ++ zipExt))))) =
        [p, o, pr, r, (ymd ++ '-' :: hm) ++ zipExt] := by
    rw [rawParts, hstr]
    rw [pySplit_append_sep _ hps, pySplit_append_sep _ hos,
      pySplit_append_sep _ hprs, pySplit_append_sep _ hrs, pySplit_no_sep hslashfn]
  have hskip :
      skipPfx (some p) [p, o, pr, r, (ymd ++ '-' :: hm) ++ zipExt] =
        [o, pr, r, (ymd ++ '-' :: hm) ++ zipExt] := by
    simp only [skipPfx, Option.getD_some, pyStrip_of_not_mem hps, List.head?_cons]
    rw [if_pos ⟨hp, trivial⟩]
    rfl
  have hmem2 : '/' ∈ r ++ '/' :: ((ymd ++ '-' :: hm) ++ zipExt) :=
    List.mem_append_right r (List.mem_cons_self _ _)
  have hsplit2 := pyRSplitLast_append r ((ymd ++ '-' :: hm) ++ zipExt) hslashfn
  have hrm : pyRemoveAll zipExt ((ymd ++ '-' :: hm) ++ zipExt) = ymd ++ '-' :: hm :=
    pyRemoveAll_strip_zip hdotdp
  have hdplen : (ymd ++ '-' :: hm).length = 15 := by
    simp [hylen, hhlen]
  have hdate : dateStrOfFilename ((ymd ++ '-' :: hm) ++ zipExt) = some ymd := by
    rw [dateStrOfFilename_eq]
    rw [if_pos ?hend]
    case hend =>
      simp only [pyEndsWith, List.isSuffixOf_iff_suffix]
      exact List.suffix_append _ _
    rw [hrm]
    rw [if_pos (by omega)]
    congr 1
    exact List.take_left' hylen
  simp only [parse_blob_path, hraw, hskip]
  rw [if_neg (by simp)]
  rw [if_neg (by simp)]
  simp only [List.getD_cons_zero, List.getD_cons_succ, List.drop_succ_cons,
    List.drop_zero]
  rw [pyJoin_pair]
  rw [if_pos hmem2]
  rw [hsplit2, hdate]

/-- C4 (amended): for every parsed key, `date_str` is produced from the
filename segment alone; it is extracted only when the filename ends with
`".zip"`, in which case every occurrence of `".zip"` is removed (for
filenames containing `".zip"` only as a suffix this is exactly stripping
the suffix) and, if at least 10 characters remain, the first 10 become
`date_str` — anything else yields `date_str = none` rather than an error.
In particular a well-formed key `{prefix}/org/project/repo/YYYY-MM-DD-HHMM.zip`
(configured prefix, no further `/` or `.` in the components) recovers
`org`, `project`, `repo` exactly and `date_str = "YYYY-MM-DD"`. -/
theorem parse_blob_path_date_rule :
    (∀ envPfx key res, parse_blob_path envPfx key = some res →
      res.date_str = dateStrOfFilename (blobFilename envPfx key)) ∧
    (∀ f, dateStrOfFilename f =
      if pyEndsWith zipExt f then
        (if 10 ≤ (pyRemoveAll zipExt f).length
         then some ((pyRemoveAll zipExt f).take 10) else none)
      else none) ∧
    (∀ p o pr r ymd hm : List Char, p ≠ [] →
      '/' ∉ p → '/' ∉ o → '/' ∉ pr → '/' ∉ r → '/' ∉ ymd → '/' ∉ hm →
      '.' ∉ ymd → '.' ∉ hm → ymd.length = 10 → hm.length = 4 →
      parse_blob_path (some p)
        (p ++ '/' :: (o ++ '/' :: (pr ++ '/' :: (r ++ '/' :: ((ymd ++ '-' :: hm) ++ zipExt))))) =
      some ⟨o, pr, r, some ymd,
        p ++ '/' :: (o ++ '/' :: (pr ++ '/' :: (r ++ '/' :: ((ymd ++ '-' :: hm) ++ zipExt))))⟩) :=
  ⟨parse_date_str_eq, dateStrOfFilename_eq,
    fun p o pr r ymd hm hp hps hos hprs hrs hys hhs hyd hhd hylen hhlen =>
      parse_wellformed_key p o pr r ymd hm hp hps hos hprs hrs hys hhs hyd hhd
        hylen hhlen⟩

/-- Witness for C4 at the concrete key `bk/org/proj/repo/2025-03-01-0900.zip`
with configured prefix `bk`. -/
theorem parse_blob_path_date_rule_witness :
    parse_blob_path (some (lit "bk"))
      (lit "bk" ++ '/' :: (lit "org" ++ '/' :: (lit "proj" ++ '/' ::
        (lit "repo" ++ '/' :: ((lit "2025-03-01" ++ '-' :: lit "0900") ++ zipExt))))) =
    some ⟨lit "org", lit "proj", lit "repo", some (lit "2025-03-01"),
      lit "bk" ++ '/' :: (lit "org" ++ '/' :: (lit "proj" ++ '/' ::
        (lit "repo" ++ '/' :: ((lit "2025-03-01" ++ '-' :: lit "0900") ++ zipExt))))⟩ :=
  parse_blob_path_date_rule.2.2 (lit "bk") (lit "org") (lit "proj") (lit "repo")
    (lit "2025-03-01") (lit "0900") (by decide) (by decide) (by decide)
    (by decide) (by decide) (by decide) (by decide) (by decide) (by decide)
    (by decide) (by decide)

/-- Counterexample to C4 as stated: for the key
`o/p/r/ab.zipcdefghijk.zip` the code removes every occurrence of `".zip"`
from the filename (giving remainder `abcdefghijk` and
`date_str = "abcdefghij"`), whereas stripping only the trailing suffix
would leave `ab.zipcdefghijk`, whose first 10 characters are
`"ab.zipcdef"`. -/
theorem parse_blob_path_replace_counterexample :
    ((parse_blob_path none (lit "o/p/r/ab.zipcdefghijk.zip")).map (·.date_str) =
      some (some (lit "abcdefghij"))) ∧
    ((lit "ab.zipcdefghijk").take 10 = lit "ab.zipcdef") ∧
    lit "abcdefghij" ≠ lit "ab.zipcdef" := by
  refine ⟨by decide, by decide, by decide⟩

/-! ## Lemmas: the outbound-call traces of link issuance and restore -/

theorem storageOnly_preVersions (cfg : Config) (w : World) (repo_id : List Char) :
    storageOnly (preVersions cfg w repo_id).2 = true := by
  simp only [preVersions]
  split
  · rfl
  · split
    · rfl
    · split <;> rfl

theorem storageOnly_get_download_link (cfg : Config) (w : World)
    (repo_id backup_id : List Char) :
    storageOnly (get_download_link cfg w repo_id backup_id).2 = true := by
  simp only [get_download_link]
  split
  · rfl
  · split
    · exact storageOnly_preVersions cfg w repo_id
    · split
      · exact storageOnly_preVersions cfg w repo_id
      · exact storageOnly_preVersions cfg w repo_id

/-- C2 (amended): when the PAT is not configured and the download link
resolves, `restore_to_azure_devops` returns the error naming the missing
token setting, and up to that point the trace holds no destination-host
call — only the storage-listing calls the link resolution performed. -/
theorem restore_missing_pat (cfg : Config) (w : World)
    (repo_id backup_id target_org target_project target_repo_name vis
      url : List Char)
    (hpat : truthy cfg.azureDevopsPat = false)
    (hdl : (get_download_link cfg w repo_id backup_id).1 = some url) :
    ((restore_to_azure_devops cfg w repo_id backup_id target_org target_project
        target_repo_name vis).1 =
      ⟨lit "error",
        lit "Azure DevOps PAT not configured. Set AZURE_DEVOPS_PAT environment variable.",
        none, none, none⟩) ∧
    storageOnly (restore_to_azure_devops cfg w repo_id backup_id target_org
      target_project target_repo_name vis).2 = true := by
  have hres : restore_to_azure_devops cfg w repo_id backup_id target_org
      target_project target_repo_name vis =
      (⟨lit "error",
        lit "Azure DevOps PAT not configured. Set AZURE_DEVOPS_PAT environment variable.",
        none, none, none⟩, (get_download_link cfg w repo_id backup_id).2) := by
    simp only [restore_to_azure_devops, hdl, hpat]
    simp
  rw [hres]
  exact ⟨rfl, storageOnly_get_download_link cfg w repo_id backup_id⟩

/-- Witness for C2 (amended) at `cfgNoPat`/`worldOk`. -/
theorem restore_missing_pat_witness :
    ((restore_to_azure_devops cfgNoPat worldOk (lit "o-p-r") bidOPR (lit "to")
        (lit "tp") (lit "tr") (lit "private")).1 =
      ⟨lit "error",
        lit "Azure DevOps PAT not configured. Set AZURE_DEVOPS_PAT environment variable.",
        none, none, none⟩) ∧
    storageOnly (restore_to_azure_devops cfgNoPat worldOk (lit "o-p-r") bidOPR
      (lit "to") (lit "tp") (lit "tr") (lit "private")).2 = true :=
  restore_missing_pat cfgNoPat worldOk (lit "o-p-r") bidOPR (lit "to") (lit "tp")
    (lit "tr") (lit "private")
    (lit "https://acct.blob.core.windows.net/git-backups/o%2Fp%2Fr%2F2025-01-02-0304.zip?SAS")
    (by decide) (by decide)

/-- Counterexample to C2 as stated: with the PAT unset, (a) when no storage
client is configured the call returns the download-link error — not an
error naming the missing token; (b) when the link does resolve, a storage
network call has already been attempted before the token error returns. -/
theorem restore_missing_pat_counterexample :
    ((restore_to_azure_devops cfgNoStorage worldOk (lit "o-p-r") bidOPR
        (lit "to") (lit "tp") (lit "tr") (lit "private")).1 =
      ⟨lit "error", lit "Failed to generate download link for backup",
        none, none, none⟩) ∧
    (lit "Failed to generate download link for backup" ≠
      lit "Azure DevOps PAT not configured. Set AZURE_DEVOPS_PAT environment variable.") ∧
    ((restore_to_azure_devops cfgNoPat worldOk (lit "o-p-r") bidOPR (lit "to")
        (lit "tp") (lit "tr") (lit "private")).2 =
      [NetEvent.storageList (lit "git-backups") (lit "o/p/r/")]) := by
  refine ⟨by decide, by decide, by decide⟩

/-- C5: an HTTP 409 from the create-repository call produces exactly the
distinguished conflict error `Repository <name> already exists in
<project>` — never the generic failure, never a success. -/
theorem restore_conflict_409 (cfg : Config) (w : World)
    (repo_id backup_id target_org target_project target_repo_name vis
      url : List Char) (resp : CreateRepoResponse)
    (hdl : (get_download_link cfg w repo_id backup_id).1 = some url)
    (hpat : truthy cfg.azureDevopsPat = true)
    (hcr : w.createRepo target_org target_project target_repo_name = .ok resp)
    (h409 : resp.status_code = 409) :
    (restore_to_azure_devops cfg w repo_id backup_id target_org target_project
        target_repo_name vis).1 =
      ⟨lit "error",
        lit "Repository " ++ target_repo_name ++ lit " already exists in " ++
          target_project, none, none, none⟩ := by
  simp only [restore_to_azure_devops, hdl, hpat, hcr, h409]
  simp

/-- Witness for C5 at `cfgFull`/`world409`. -/
theorem restore_conflict_409_witness :
    (restore_to_azure_devops cfgFull world409 (lit "o-p-r") bidOPR (lit "to")
        (lit "tp") (lit "tr") (lit "private")).1 =
      ⟨lit "error",
        lit "Repository " ++ lit "tr" ++ lit " already exists in " ++ lit "tp",
        none, none, none⟩ :=
  restore_conflict_409 cfgFull world409 (lit "o-p-r") bidOPR (lit "to")
    (lit "tp") (lit "tr") (lit "private")
    (lit "https://acct.blob.core.windows.net/git-backups/o%2Fp%2Fr%2F2025-01-02-0304.zip?SAS")
    ⟨409, lit "conflict", .ok ⟨none, none⟩⟩ (by decide) (by decide) (by decide)
    (by decide)

/-- C7: when the version id resolves but SAS signing raises, the `except`
branch returns the object's plain percent-encoded blob URL instead of
failing. -/
theorem get_download_link_signing_fallback (cfg : Config) (w : World)
    (repo_id backup_id : List Char) (backup : BackupVersion) (e : List Char)
    (havail : storage_client_available cfg = true)
    (hfind : (list_backup_versions cfg w repo_id).1.find?
      (fun v => v.id == backup_id) = some backup)
    (hbp : backup.blob_path.isEmpty = false)
    (hconn : truthy cfg.connectionString = true)
    (hkey : (pyDictGet (parseConnStr (cfg.connectionString.getD []))
      (lit "AccountKey") []).isEmpty = false)
    (hsas : w.generateSas backup.blob_path = .exc e) :
    (get_download_link cfg w repo_id backup_id).1 =
      some (w.accountUrl ++ lit "/" ++ cfg.container.getD (lit "git-backups") ++
        lit "/" ++ pyQuote backup.blob_path) := by
  simp only [get_download_link, havail, hfind, hbp, hconn, hkey, hsas]
  simp

/-- Witness for C7 at `cfgFull`/`worldSasExc`. -/
theorem get_download_link_signing_fallback_witness :
    (get_download_link cfgFull worldSasExc (lit "o-p-r") bidOPR).1 =
      some (worldSasExc.accountUrl ++ lit "/" ++
        cfgFull.container.getD (lit "git-backups") ++ lit "/" ++
        pyQuote backupOPR.blob_path) :=
  get_download_link_signing_fallback cfgFull worldSasExc (lit "o-p-r") bidOPR
    backupOPR (lit "sigfail") (by decide) (by decide) (by decide) (by decide)
    (by decide) (by decide)

/-- C8 (amended): an unexpected failure at the destination-host step —
whether the create-repository POST raises in transport or its 200/201
response body fails to parse as JSON — is caught and converted to
`Restore failed: <cause>`, and every execution path of the orchestrator
terminates in exactly one `RestoreOutcome` whose status is `success` or
`error` (it never raises; a transport failure during link resolution
instead surfaces as the download-link error, see the counterexample). -/
theorem restore_total_outcomes :
    (∀ (cfg : Config) (w : World)
      (repo_id backup_id tgo tgp tgn vis url e : List Char),
      (get_download_link cfg w repo_id backup_id).1 = some url →
      truthy cfg.azureDevopsPat = true →
      w.createRepo tgo tgp tgn = .exc e →
      (restore_to_azure_devops cfg w repo_id backup_id tgo tgp tgn vis).1 =
        ⟨lit "error", lit "Restore failed: " ++ e, none, none, none⟩) ∧
    (∀ (cfg : Config) (w : World)
      (repo_id backup_id tgo tgp tgn vis url e : List Char)
      (resp : CreateRepoResponse),
      (get_download_link cfg w repo_id backup_id).1 = some url →
      truthy cfg.azureDevopsPat = true →
      w.createRepo tgo tgp tgn = .ok resp →
      (resp.status_code = 200 ∨ resp.status_code = 201) →
      resp.body = .exc e →
      (restore_to_azure_devops cfg w repo_id backup_id tgo tgp tgn vis).1 =
        ⟨lit "error", lit "Restore failed: " ++ e, none, none, none⟩) ∧
    (∀ (cfg : Config) (w : World) (repo_id backup_id tgo tgp tgn vis : List Char),
      (restore_to_azure_devops cfg w repo_id backup_id tgo tgp tgn vis).1.status =
        lit "success" ∨
      (restore_to_azure_devops cfg w repo_id backup_id tgo tgp tgn vis).1.status =
        lit "error") := by
  refine ⟨?_, ?_, ?_⟩
  · intro cfg w repo_id backup_id tgo tgp tgn vis url e hdl hpat hcr
    simp only [restore_to_azure_devops, hdl, hpat, hcr]
    simp
  · intro cfg w repo_id backup_id tgo tgp tgn vis url e resp hdl hpat hcr hok hbody
    simp only [restore_to_azure_devops, hdl, hpat, hcr, hbody]
    rcases hok with h | h <;> simp [h]
  · intro cfg w repo_id backup_id tgo tgp tgn vis
    simp only [restore_to_azure_devops]
    split
    · right; rfl
    · split
      · right; rfl
      · split
        · right; rfl
        · split
          · split
            · right; rfl
            · right; rfl
          · split
            · right; rfl
            · left; rfl

/-- Witness for C8 (amended): a transport failure at the POST
(`worldPostExc`) and an unparseable response body (`worldBadJson`) both
yield the `Restore failed: <cause>` error. -/
theorem restore_total_outcomes_witness :
    ((restore_to_azure_devops cfgFull worldPostExc (lit "o-p-r") bidOPR
        (lit "to") (lit "tp") (lit "tr") (lit "private")).1 =
      ⟨lit "error", lit "Restore failed: " ++ lit "boom", none, none, none⟩) ∧
    ((restore_to_azure_devops cfgFull worldBadJson (lit "o-p-r") bidOPR
        (lit "to") (lit "tp") (lit "tr") (lit "private")).1 =
      ⟨lit "error", lit "Restore failed: " ++ lit "badjson", none, none, none⟩) :=
  ⟨restore_total_outcomes.1 cfgFull worldPostExc (lit "o-p-r") bidOPR (lit "to")
    (lit "tp") (lit "tr") (lit "private")
    (lit "https://acct.blob.core.windows.net/git-backups/o%2Fp%2Fr%2F2025-01-02-0304.zip?SAS")
    (lit "boom") (by decide) (by decide) (by decide),
   restore_total_outcomes.2.1 cfgFull worldBadJson (lit "o-p-r") bidOPR (lit "to")
    (lit "tp") (lit "tr") (lit "private")
    (lit "https://acct.blob.core.windows.net/git-backups/o%2Fp%2Fr%2F2025-01-02-0304.zip?SAS")
    (lit "badjson") ⟨201, lit "", .exc (lit "badjson")⟩
    (by decide) (by decide) (by decide) (by decide) (by decide)⟩

/-- Counterexample to C8 as stated: a transport failure during the
storage-listing step of link resolution yields the download-link error, not
`Restore failed: <cause>`. -/
theorem restore_listing_failure_counterexample :
    ((restore_to_azure_devops cfgFull worldListExc (lit "o-p-r") bidOPR
        (lit "to") (lit "tp") (lit "tr") (lit "private")).1 =
      ⟨lit "error", lit "Failed to generate download link for backup",
        none, none, none⟩) ∧
    (lit "Failed to generate download link for backup" ≠
      lit "Restore failed: neterr") := by
  refine ⟨by decide, by decide⟩
